import Mathlib

/-!
Verification of the request-tracker persistence layer (`bot/helpers/database.py`).

The two persisted tables from `create_schema` are modelled as Lean lists of
records; each ledger operation of the `Database` class becomes a function on
that state.  Timestamps are modelled as integers (seconds); `datetime.now()`
becomes an explicit `now : Int` argument threaded through the operations, and
a trace of timed operations replays a call sequence.  Nullable SQL columns
become `Option`; `req_time` is declared nullable in the schema but the only
INSERT into `requests` (`register_request`) always supplies it, so it is
modelled as a plain `Int`.
-/

namespace RequestTracker

/-- A row of the `users` table: `user_id BIGINT PRIMARY KEY`,
`name TEXT DEFAULT NULL`, `user_name TEXT DEFAULT NULL`. -/
structure UserRow where
  user_id : Int
  name : Option String
  user_name : Option String
deriving DecidableEq

/-- A row of the `requests` table (`create_schema`): `user_id` (FK, not null),
`is_english` (not null), `message_id` (primary key), `req_time` (always set by
`register_request`), and the three nullable fulfillment columns. -/
structure Request where
  user_id : Int
  is_english : Bool
  message_id : Int
  req_time : Int
  fulfill_message_id : Option Int
  fulfill_time : Option Int
  fulfilled_by : Option Int
deriving DecidableEq

/-- The database state: the two tables created by `create_schema`. -/
structure DBState where
  users : List UserRow
  requests : List Request
deriving DecidableEq

/-- The empty schema right after `create_schema` on a fresh database. -/
def emptyDB : DBState := ⟨[], []⟩

/-- Errors surfaced by the psycopg2 layer for constraint violations. -/
inductive DBError
  | duplicateKey
  | foreignKeyViolation
deriving DecidableEq

/-- `add_user`: `INSERT INTO users (user_id, name, user_name) VALUES (...)`.
Raises a duplicate-key error when the primary key `user_id` already exists. -/
def add_user (db : DBState) (uid : Int) (name uname : Option String) :
    Except DBError DBState :=
  if db.users.any (fun u => u.user_id == uid) then
    .error .duplicateKey
  else
    .ok { db with users := db.users ++ [⟨uid, name, uname⟩] }

/-- `register_request`: `INSERT INTO requests (user_id, is_english, message_id,
req_time) VALUES (%s, %s, %s, now)`.  The unique index on `message_id` rejects a
reused id; the `fk_user_id` constraint rejects an unknown `user_id`.  The
fulfillment columns take their `DEFAULT NULL` values. -/
def register_request (db : DBState) (now : Int) (uid : Int) (is_eng : Bool)
    (mid : Int) : Except DBError DBState :=
  if db.requests.any (fun r => r.message_id == mid) then
    .error .duplicateKey
  else if db.users.any (fun u => u.user_id == uid) then
    .ok { db with requests := db.requests ++ [⟨uid, is_eng, mid, now, none, none, none⟩] }
  else
    .error .foreignKeyViolation

/-- `register_request_fulfillment`: `UPDATE requests SET fulfill_message_id = %s,
fulfill_time = now, fulfilled_by = %s WHERE (user_id = %s AND message_id = %s)`.
The Python callers pass integer ids, so `fid` and `fby` are `Int`. -/
def register_request_fulfillment (db : DBState) (now uid mid fid fby : Int) :
    DBState :=
  { db with requests := db.requests.map (fun r =>
      if r.user_id == uid && r.message_id == mid then
        { r with fulfill_message_id := some fid, fulfill_time := some now,
                 fulfilled_by := some fby }
      else r) }

/-- `mark_request_not_done`: `UPDATE requests SET fulfill_message_id = NULL,
fulfill_time = NULL, fulfilled_by = NULL WHERE (user_id = %s AND message_id = %s)`. -/
def mark_request_not_done (db : DBState) (uid mid : Int) : DBState :=
  { db with requests := db.requests.map (fun r =>
      if r.user_id == uid && r.message_id == mid then
        { r with fulfill_message_id := none, fulfill_time := none,
                 fulfilled_by := none }
      else r) }

/-- `update_fulfilled_by`: `UPDATE requests SET fulfilled_by = %s WHERE
fulfill_message_id = %s`.  Both Python parameters are unannotated, so either
may be `None`, which psycopg2 renders as SQL `NULL`: `fulfill_message_id =
NULL` is never true and matches no row, while `SET fulfilled_by = NULL` clears
the field on every matching row.  A non-null `fulfill_message_id` argument
matches only rows whose stored `fulfill_message_id` is non-null and equal. -/
def update_fulfilled_by_sql (db : DBState) (fmid fby : Option Int) : DBState :=
  { db with requests := db.requests.map (fun r =>
      if fmid.isSome && r.fulfill_message_id == fmid then
        { r with fulfilled_by := fby }
      else r) }

/-- `update_fulfilled_by` at the integer arguments the bot's handlers pass. -/
def update_fulfilled_by (db : DBState) (fmid fby : Int) : DBState :=
  update_fulfilled_by_sql db (some fmid) (some fby)

/-- `delete_request`: `DELETE FROM requests WHERE message_id = %s`. -/
def delete_request (db : DBState) (mid : Int) : DBState :=
  { db with requests := db.requests.filter (fun r => !(r.message_id == mid)) }

/-- One call into the ledger.  `registerRequestFulfillment` carries the
integer arguments of its annotated Python signature (`fulfill_id: int`,
`fulfilled_by: int`); `updateFulfilledBy` keeps both parameters optional, as
the unannotated `update_fulfilled_by(self, fulfill_message_id, fulfilled_by)`
admits `None` for either. -/
inductive Op
  | addUser (uid : Int) (name uname : Option String)
  | registerRequest (uid : Int) (is_eng : Bool) (mid : Int)
  | registerRequestFulfillment (uid mid fid fby : Int)
  | markRequestNotDone (uid mid : Int)
  | updateFulfilledBy (fmid fby : Option Int)
  | deleteRequest (mid : Int)
deriving DecidableEq

/-- Apply one operation at time `now`.  A failed INSERT is rolled back
(`self.connection.rollback()` in the `except` branch), so on error the state is
unchanged. -/
def applyOp (db : DBState) (now : Int) : Op → DBState
  | .addUser uid n un =>
      match add_user db uid n un with
      | .ok db2 => db2
      | .error _ => db
  | .registerRequest uid e mid =>
      match register_request db now uid e mid with
      | .ok db2 => db2
      | .error _ => db
  | .registerRequestFulfillment uid mid fid fby =>
      register_request_fulfillment db now uid mid fid fby
  | .markRequestNotDone uid mid => mark_request_not_done db uid mid
  | .updateFulfilledBy fmid fby => update_fulfilled_by_sql db fmid fby
  | .deleteRequest mid => delete_request db mid

/-- Replay a sequence of timed ledger calls. -/
def execTrace (db : DBState) : List (Int × Op) → DBState
  | [] => db
  | step :: rest => execTrace (applyOp db step.1 step.2) rest

/-- `get_user`: `SELECT user_id FROM users WHERE user_id = %s`, then
`(usr_id) = next(cur, (None))` — the parenthesised name is NOT a tuple pattern,
so the whole one-column row tuple (or `None`) is returned unchanged.  The row
tuple is modelled as a one-element list. -/
def get_user (db : DBState) (uid : Int) : Option (List Int) :=
  (db.users.find? (fun u => u.user_id == uid)).map (fun u => [u.user_id])

/-- `get_user_details`: returns the `user_id, name, user_name` row as a record,
or `None` when the sentinel `(None, None, None)` was produced. -/
def get_user_details (db : DBState) (uid : Int) :
    Option (Int × Option String × Option String) :=
  (db.users.find? (fun u => u.user_id == uid)).map
    (fun u => (u.user_id, u.name, u.user_name))

/-- `ORDER BY message_id DESC LIMIT 1` over a list of rows: the row with the
largest `message_id` (`message_id` is the primary key, so ties cannot occur). -/
def maxByMessageId : List Request → Option Request
  | [] => none
  | r :: rs =>
      match maxByMessageId rs with
      | none => some r
      | some m => if r.message_id < m.message_id then some m else some r

/-- The six-column dictionary `get_user_last_request` builds; every field is
the Python sentinel `None` when the user has no requests. -/
structure LastRequestRow where
  user_id : Option Int
  is_english : Option Bool
  message_id : Option Int
  req_time : Option Int
  fulfill_message_id : Option Int
  fulfill_time : Option Int
deriving DecidableEq

/-- The all-`None` dictionary produced from the sentinel row. -/
def noLastRequest : LastRequestRow := ⟨none, none, none, none, none, none⟩

/-- `get_user_last_request`: `SELECT ... FROM requests WHERE user_id = %s ORDER
BY message_id DESC LIMIT 1`, defaulting every column to `None`. -/
def get_user_last_request (db : DBState) (uid : Int) : LastRequestRow :=
  match maxByMessageId (db.requests.filter (fun r => r.user_id == uid)) with
  | none => noLastRequest
  | some r =>
      ⟨some r.user_id, some r.is_english, some r.message_id, some r.req_time,
       r.fulfill_message_id, r.fulfill_time⟩

/-- `ORDER BY fulfill_time DESC LIMIT 1` over rows already restricted to
non-null `fulfill_time`. -/
def maxByFulfillTime : List Request → Option Request
  | [] => none
  | r :: rs =>
      match maxByFulfillTime rs with
      | none => some r
      | some m =>
          if r.fulfill_time.getD 0 < m.fulfill_time.getD 0 then some m else some r

/-- The seven-column dictionary `get_latest_fulfilled` builds. -/
structure FulfilledRow where
  user_id : Option Int
  is_english : Option Bool
  message_id : Option Int
  req_time : Option Int
  fulfill_message_id : Option Int
  fulfill_time : Option Int
  fulfilled_by : Option Int
deriving DecidableEq

/-- The all-`None` dictionary produced from the sentinel row. -/
def noFulfilledRow : FulfilledRow := ⟨none, none, none, none, none, none, none⟩

/-- `get_latest_fulfilled`: `SELECT ... FROM requests WHERE fulfill_time is NOT
NULL ORDER BY fulfill_time DESC LIMIT 1`, defaulting every column to `None`. -/
def get_latest_fulfilled (db : DBState) : FulfilledRow :=
  match maxByFulfillTime (db.requests.filter (fun r => r.fulfill_time.isSome)) with
  | none => noFulfilledRow
  | some r =>
      ⟨some r.user_id, some r.is_english, some r.message_id, some r.req_time,
       r.fulfill_message_id, r.fulfill_time, r.fulfilled_by⟩

/-- `get_oldest_request_time`: `SELECT req_time FROM requests ORDER BY req_time
ASC LIMIT 1`, and again `(req_time) = next(cur, (None))` keeps the whole
one-column row tuple, modelled as a one-element list. -/
def get_oldest_request_time (db : DBState) : Option (List Int) :=
  match db.requests.map (fun r => r.req_time) with
  | [] => none
  | t :: ts => some [ts.foldl min t]

/-- The shared body of `get_user_stats` and `get_global_stats`: the CTE
projects each row to `(is_english, fulfill_time IS NOT NULL)`; the `GROUP BY
is_english, is_fulfilled` / `COUNT` output is consumed by the Python loop that
fills the four buckets (a missing group leaves its bucket at 0), which yields
exactly one count per boolean combination.  Returned in the source's order
`(english_fulfilled, non_english_fulfilled, english_not_fulfilled,
non_english_not_fulfilled)`. -/
def statsOf (rows : List Request) : Nat × Nat × Nat × Nat :=
  let nt := rows.map (fun r => (r.is_english, r.fulfill_time.isSome))
  (nt.countP (fun p => p.2 && p.1),
   nt.countP (fun p => p.2 && !p.1),
   nt.countP (fun p => !p.2 && p.1),
   nt.countP (fun p => !p.2 && !p.1))

/-- `get_user_stats`: the CTE restricts to `WHERE user_id = %s`. -/
def get_user_stats (db : DBState) (uid : Int) : Nat × Nat × Nat × Nat :=
  statsOf (db.requests.filter (fun r => r.user_id == uid))

/-- `get_global_stats`: the same query without the user restriction. -/
def get_global_stats (db : DBState) : Nat × Nat × Nat × Nat :=
  statsOf db.requests

/-- `timedelta(days=1)` in seconds. -/
def oneDay : Int := 86400

/-- `get_weekly_stats`: for each `(week_start, week_end, week_number)` the code
sets `week_end = week_end + timedelta(days=1)` and issues two COUNT queries,
`req_time >= week_start AND req_time <= week_end` and the same for
`fulfill_time` (SQL comparisons with NULL are not true, so a null
`fulfill_time` is never counted).  `results[week_number] = (opened, fulfilled)`
is modelled as an association list in week order. -/
def get_weekly_stats (db : DBState) (weeks : List (Int × Int × String)) :
    List (String × (Nat × Nat)) :=
  weeks.map (fun week =>
    let week_end : Int := week.2.1 + oneDay
    (week.2.2,
      (db.requests.countP (fun r =>
         decide (week.1 ≤ r.req_time) && decide (r.req_time ≤ week_end)),
       db.requests.countP (fun r =>
         match r.fulfill_time with
         | some t => decide (week.1 ≤ t) && decide (t ≤ week_end)
         | none => false))))

/-- The distinct non-null `fulfilled_by` values, i.e. the groups of
`GROUP BY fulfilled_by` after `WHERE fulfilled_by IS NOT NULL`. -/
def fulfillerIds (rows : List Request) : List Int :=
  (rows.filterMap (fun r => r.fulfilled_by)).dedup

/-- One `(COUNT(message_id), fulfilled_by)` output row per group
(`message_id` is the non-null primary key, so `COUNT(message_id)` is the
group's row count). -/
def leaderboardGroups (rows : List Request) : List (Nat × Int) :=
  (fulfillerIds rows).map
    (fun f => (rows.countP (fun r => r.fulfilled_by == some f), f))

/-- Insert into a list kept in descending `count` order (`ORDER BY count DESC`;
the order among equal counts is not fixed by the query). -/
def insertDescByCount (p : Nat × Int) : List (Nat × Int) → List (Nat × Int)
  | [] => [p]
  | q :: l => if q.1 ≤ p.1 then p :: q :: l else q :: insertDescByCount p l

/-- Sort the group rows by descending count. -/
def sortDescByCount : List (Nat × Int) → List (Nat × Int)
  | [] => []
  | p :: l => insertDescByCount p (sortDescByCount l)

/-- `get_leaderboard`: `SELECT COUNT(message_id) AS count, fulfilled_by FROM
requests WHERE fulfilled_by IS NOT NULL GROUP BY fulfilled_by ORDER BY count
DESC`. -/
def get_leaderboard (db : DBState) : List (Nat × Int) :=
  sortDescByCount (leaderboardGroups db.requests)

/-! ### Backup exporter (`get_backup_data` / its inner `format_data`) -/

/-- A timestamp as the fields `strftime` reads. -/
structure Timestamp where
  year : Nat
  month : Nat
  day : Nat
  hour : Nat
  minute : Nat
  second : Nat
deriving DecidableEq

/-- A scalar cell value of either table, as psycopg2 hands it to Python. -/
inductive Value
  | null
  | int (n : Int)
  | bool (b : Bool)
  | timestamp (t : Timestamp)
  | text (s : String)
deriving DecidableEq

/-- Zero-pad to two digits (`%m` / `%d` / `%H` / `%M` / `%S`). -/
def pad2 (n : Nat) : String :=
  if n < 10 then ("0" ++ toString n) else toString n

/-- Zero-pad to four digits (`%Y`). -/
def pad4 (n : Nat) : String :=
  if n < 10 then ("000" ++ toString n)
  else if n < 100 then ("00" ++ toString n)
  else if n < 1000 then ("0" ++ toString n)
  else toString n

/-- `strftime` with the pattern `%Y-%m-%d %H:%M:%S`. -/
def formatTimestamp (t : Timestamp) : String :=
  pad4 t.year ++ "-" ++ pad2 t.month ++ "-" ++ pad2 t.day ++ " " ++
    pad2 t.hour ++ ":" ++ pad2 t.minute ++ ":" ++ pad2 t.second

/-- Whether a character occurs in a string (Python `c in s`). -/
def strHasChar (s : String) (c : Char) : Bool :=
  s.data.contains c

/-- Python `repr` escaping of a string body: backslashes and the chosen quote
character are backslash-escaped (other printable characters pass through). -/
def pyEscapeChars (q : Char) : List Char → List Char
  | [] => []
  | c :: cs =>
      (if c = '\\' then ['\\', '\\']
       else if c = q then ['\\', q]
       else [c]) ++ pyEscapeChars q cs

/-- Python `repr` of a `str`: single-quoted, except that a string containing a
single quote and no double quote is double-quoted. -/
def pyReprStr (s : String) : String :=
  if strHasChar s '\'' && !strHasChar s '"' then
    String.mk ('"' :: (pyEscapeChars '"' s.data ++ ['"']))
  else
    String.mk ('\'' :: (pyEscapeChars '\'' s.data ++ ['\'']))

/-- The inner `format_data` of `get_backup_data`: `None` becomes the token
`NULL`; a `datetime` is rendered as `f"{val:'%Y-%m-%d %H:%M:%S'}"` (the single
quotes in the format spec are literal output characters); every other value is
rendered with Python `repr` (`repr(7) = 7`, `repr(True) = True`,
`repr` of a `str` as above). -/
def format_data : Value → String
  | .null => "NULL"
  | .timestamp t => "'" ++ formatTimestamp t ++ "'"
  | .int n => toString n
  | .bool b => if b then ("True") else ("False")
  | .text s => pyReprStr s

/-- Python `", ".join`. -/
def joinSep (sep : String) : List String → String
  | [] => ""
  | [x] => x
  | x :: xs => x ++ sep ++ joinSep sep xs

/-- One emitted backup line: `f"{insert_prefix} ({', '.join(row_data)});\n"`
with `insert_prefix = f"INSERT INTO {table} ({', '.join(columns)}) VALUES"`
(shown without the trailing newline). -/
def insertLine (table : String) (columns : List String) (row : List Value) :
    String :=
  "INSERT INTO " ++ table ++ " (" ++ joinSep (", ") columns ++ ") VALUES (" ++
    joinSep (", ") (row.map format_data) ++ ");"

/-- Modelled from the spec: the replay side of the round-trip property feeds
the emitted statements back into the SQL engine, which is not part of `src/`.
A standard SQL string-literal body allows any character except a lone single
quote; an embedded single quote is written as two consecutive single quotes. -/
def sqlUnquoteBody : List Char → Option (List Char)
  | [] => some []
  | '\'' :: '\'' :: rest => (sqlUnquoteBody rest).map (fun cs => '\'' :: cs)
  | '\'' :: _ => none
  | c :: rest => (sqlUnquoteBody rest).map (fun cs => c :: cs)

/-- Modelled from the spec: decode a token as a standard SQL string literal —
it must be wrapped in single quotes and its body must escape embedded single
quotes by doubling.  A token that does not decode (for instance a
double-quoted token, which SQL reads as an identifier) cannot replay to the
original text value. -/
def parseSQLTextLiteral (s : String) : Option String :=
  match s.data with
  | '\'' :: rest =>
      match rest.getLast? with
      | some q =>
          if q = '\'' then (sqlUnquoteBody rest.dropLast).map String.mk
          else none
      | none => none
  | _ => none

/-! ### Spec-side definitions for the weekly-stats claim (C3) -/

/-- Written from the claim as stated: for each week window, `opened` counts the
requests whose `req_time` lies in the half-open range
`[startDate, endDate + 1 day)` (end boundary exclusive) and `fulfilled` counts
the requests whose `fulfill_time` lies in that same half-open range. -/
def weeklyStatsHalfOpen (db : DBState) (weeks : List (Int × Int × String)) :
    List (String × (Nat × Nat)) :=
  weeks.map (fun week =>
    (week.2.2,
      ((db.requests.filter (fun r =>
          decide (week.1 ≤ r.req_time ∧ r.req_time < week.2.1 + oneDay))).length,
       (db.requests.filter (fun r =>
          (r.fulfill_time.map (fun t =>
            decide (week.1 ≤ t ∧ t < week.2.1 + oneDay))).getD false)).length)))

/-- Written from the amended claim: for each week window, `opened` counts the
requests whose `req_time` lies in the closed range
`[startDate, endDate + 1 day]` (both boundaries inclusive) and `fulfilled`
counts the requests whose `fulfill_time` lies in that same closed range. -/
def weeklyStatsClosed (db : DBState) (weeks : List (Int × Int × String)) :
    List (String × (Nat × Nat)) :=
  weeks.map (fun week =>
    (week.2.2,
      ((db.requests.filter (fun r =>
          decide (week.1 ≤ r.req_time ∧ r.req_time ≤ week.2.1 + oneDay))).length,
       (db.requests.filter (fun r =>
          (r.fulfill_time.map (fun t =>
            decide (week.1 ≤ t ∧ t ≤ week.2.1 + oneDay))).getD false)).length)))

/-! ### Invariants -/

/-- The fulfillment triple of a request row is all null or all non-null. -/
def tripleOK (r : Request) : Prop :=
  (r.fulfill_message_id = none ∧ r.fulfill_time = none ∧ r.fulfilled_by = none) ∨
  (r.fulfill_message_id.isSome ∧ r.fulfill_time.isSome ∧ r.fulfilled_by.isSome)

instance (r : Request) : Decidable (tripleOK r) := by
  unfold tripleOK; infer_instance

/-- The argument discipline of the amended triple invariant: re-attribution
(`update_fulfilled_by`), like fulfillment, is called with a non-null
`fulfilled_by` argument.  Every other operation is unrestricted. -/
def opNonNullFulfiller (op : Op) : Bool :=
  match op with
  | .updateFulfilledBy _ fby => fby.isSome
  | _ => true

/-- Every row's `req_time` is bounded by the clock, and fulfilled rows
satisfy `req_time ≤ fulfill_time`. -/
def reqTimeBounded (db : DBState) (t : Int) : Prop :=
  ∀ r ∈ db.requests, r.req_time ≤ t ∧
    ∀ ft, r.fulfill_time = some ft → r.req_time ≤ ft

/-! ### Concrete states and traces used to instantiate the theorems

Times are seconds since 2024-01-01 00:00:00, so 2024-01-03 is `2 * oneDay`,
2024-01-07 is `6 * oneDay`, 2024-01-08 is `7 * oneDay` and 2024-01-10 is
`9 * oneDay`. -/

/-- One user with one request opened exactly at 2024-01-08 00:00:00, the
computed end boundary of the week window `[2024-01-01, 2024-01-07]`. -/
def c3BoundaryDB : DBState :=
  ⟨[⟨1, none, none⟩], [⟨1, true, 100, 7 * oneDay, none, none, none⟩]⟩

/-- The week window `[2024-01-01, 2024-01-07]` labelled `W1`. -/
def weekW1 : List (Int × Int × String) := [(0, 6 * oneDay, "W1")]

/-- Scenario E: one request opened 2024-01-03 and fulfilled 2024-01-10. -/
def scenarioEDB : DBState :=
  ⟨[⟨1, none, none⟩],
   [⟨1, true, 100, 2 * oneDay, some 500, some (9 * oneDay), some 7⟩]⟩

/-- A small replay: add user 1, open request 100 at time 1, fulfill it at
time 2 with acknowledgement message 200 by fulfiller 7. -/
def demoTrace : List (Int × Op) :=
  [(0, .addUser 1 none none), (1, .registerRequest 1 true 100),
   (2, .registerRequestFulfillment 1 100 200 7)]

/-- `demoTrace` followed by `update_fulfilled_by(200, None)` — the fulfilled
row's `fulfilled_by` is set back to NULL while `fulfill_message_id` and
`fulfill_time` stay populated. -/
def c1CounterTrace : List (Int × Op) :=
  [(0, .addUser 1 none none), (1, .registerRequest 1 true 100),
   (2, .registerRequestFulfillment 1 100 200 7),
   (3, .updateFulfilledBy (some 200) none)]

/-- `demoTrace` followed by the re-attribution `update_fulfilled_by(200, 9)`
with a non-null fulfiller. -/
def c1DemoTrace : List (Int × Op) :=
  [(0, .addUser 1 none none), (1, .registerRequest 1 true 100),
   (2, .registerRequestFulfillment 1 100 200 7),
   (3, .updateFulfilledBy (some 200) (some 9))]

/-- The single request row `c1DemoTrace` produces. -/
def c1DemoRow : Request := ⟨1, true, 100, 1, some 200, some 2, some 9⟩

/-- Four requests, three fulfilled (two by user 7, one by user 9), one pending. -/
def c5DemoDB : DBState :=
  ⟨[⟨1, none, none⟩, ⟨2, none, none⟩],
   [⟨1, true, 100, 10, some 500, some 20, some 7⟩,
    ⟨2, true, 101, 11, some 501, some 21, some 7⟩,
    ⟨1, false, 102, 12, some 502, some 22, some 9⟩,
    ⟨2, false, 103, 13, none, none, none⟩]⟩

/-- One registered user and no requests. -/
def c7DemoDB : DBState := ⟨[⟨1, none, none⟩], []⟩

/-- Two pending requests of user 1, the older one carrying `req_time = 30`. -/
def c10DemoDB : DBState :=
  ⟨[⟨1, none, none⟩],
   [⟨1, true, 100, 50, none, none, none⟩, ⟨1, false, 101, 30, none, none, none⟩]⟩

/-! ### Helper lemmas -/

/-- The four `{is_english} × {is_fulfilled}` buckets partition a list of
projected rows. -/
theorem countP_four_split (l : List (Bool × Bool)) :
    l.countP (fun p => p.2 && p.1) + l.countP (fun p => p.2 && !p.1) +
      l.countP (fun p => !p.2 && p.1) + l.countP (fun p => !p.2 && !p.1) =
      l.length := by
  induction l with
  | nil => rfl
  | cons a l ih =>
      rcases a with ⟨e, f⟩
      simp only [List.countP_cons, List.length_cons]
      cases e <;> cases f <;> simp <;> omega

/-- The four buckets of `statsOf` sum to the number of rows. -/
theorem statsOf_sum (rows : List Request) :
    (statsOf rows).1 + (statsOf rows).2.1 + (statsOf rows).2.2.1 +
      (statsOf rows).2.2.2 = rows.length := by
  have h := countP_four_split (rows.map (fun r => (r.is_english, r.fulfill_time.isSome)))
  simpa [statsOf] using h

/-! ### C2 -/

/-- C2: the four counts returned by `get_user_stats u` sum to the number of
request rows with `user_id = u`, and the four counts returned by
`get_global_stats` sum to the total number of request rows. -/
theorem c2_stats_buckets_sum (db : DBState) (uid : Int) :
    ((get_user_stats db uid).1 + (get_user_stats db uid).2.1 +
        (get_user_stats db uid).2.2.1 + (get_user_stats db uid).2.2.2 =
      (db.requests.filter (fun r => r.user_id == uid)).length) ∧
    ((get_global_stats db).1 + (get_global_stats db).2.1 +
        (get_global_stats db).2.2.1 + (get_global_stats db).2.2.2 =
      db.requests.length) :=
  ⟨statsOf_sum _, statsOf_sum _⟩

/-! ### C3 -/

/-- C3 counterexample: with one request whose `req_time` is exactly
`endDate + 1 day` (2024-01-08 00:00:00 for the window `[2024-01-01,
2024-01-07]`), `get_weekly_stats` counts it as opened — the SQL comparison is
`req_time <= week_end` — but the half-open range `[startDate, endDate + 1 day)`
of the claim excludes it, so the claim as stated is false. -/
theorem c3_halfopen_counterexample :
    get_weekly_stats c3BoundaryDB weekW1 ≠ weeklyStatsHalfOpen c3BoundaryDB weekW1 := by
  decide

/-- C3 (amended): `get_weekly_stats` counts as opened exactly the requests
whose `req_time` lies in the closed range `[startDate, endDate + 1 day]` (the
computed end boundary is inclusive) and independently counts as fulfilled
exactly the requests whose `fulfill_time` lies in that same closed range; the
scenario-E window `[2024-01-01, 2024-01-07]` labelled `W1` with one request
opened 2024-01-03 and fulfilled 2024-01-10 still yields `(opened 1,
fulfilled 0)`. -/
theorem c3_weekly_window_closed :
    (∀ (db : DBState) (weeks : List (Int × Int × String)),
        get_weekly_stats db weeks = weeklyStatsClosed db weeks) ∧
    get_weekly_stats scenarioEDB weekW1 = [("W1", (1, 0))] := by
  constructor
  · intro db weeks
    unfold get_weekly_stats weeklyStatsClosed
    apply List.map_congr_left
    intro w _
    dsimp only
    congr 1
    congr 1
    · rw [List.countP_eq_length_filter]
      congr 1
      apply List.filter_congr
      intro r _
      rw [Bool.decide_and]
    · rw [List.countP_eq_length_filter]
      congr 1
      apply List.filter_congr
      intro r _
      cases hft : r.fulfill_time <;> simp [Bool.decide_and]
  · decide

/-! ### C4 -/

/-- C4 (code bug): the backup exporter renders text with Python `repr`, so a
`name` containing a single quote — for instance the users row
`(1, O'Brien, NULL)` — is emitted as the double-quoted token `"O'Brien"`,
which does not decode as a SQL string literal (double quotes delimit
identifiers, not strings); replaying the emitted INSERT therefore cannot
reproduce the value, breaking the claimed round-trip.  A quote-free value
round-trips, showing the failure is specific to the escaping. -/
theorem c4_backup_text_quoting_bug :
    format_data (Value.text ("O'Brien")) = "\"O'Brien\"" ∧
    parseSQLTextLiteral (format_data (Value.text ("O'Brien"))) = none ∧
    parseSQLTextLiteral (format_data (Value.text ("OBrien"))) = some ("OBrien") ∧
    insertLine ("users") [("user_id"), ("name"), ("user_name")]
        [Value.int 1, Value.text ("O'Brien"), Value.null] =
      "INSERT INTO users (user_id, name, user_name) VALUES (1, \"O'Brien\", NULL);" :=
  ⟨rfl, rfl, rfl, rfl⟩

/-! ### C6 -/

/-- A list is pointwise related to its image under `f` when every element is
related to its own image. -/
theorem forall₂_map_self {α : Type} (f : α → α) (P : α → α → Prop) (l : List α)
    (h : ∀ a ∈ l, P a (f a)) : List.Forall₂ P l (l.map f) := by
  induction l with
  | nil => constructor
  | cons a l ih =>
      exact List.Forall₂.cons (h a (by simp)) (ih (fun x hx => h x (by simp [hx])))

/-- C6: `update_fulfilled_by fmid fby` leaves the users table untouched and,
row by row, changes nothing but `fulfilled_by`: every other field of every row
is unchanged, a row whose `fulfill_message_id` differs from `fmid` keeps its
`fulfilled_by` as well, and a matching row gets `fulfilled_by = fby`. -/
theorem c6_update_fulfilled_by_frame (db : DBState) (fmid fby : Int) :
    (update_fulfilled_by db fmid fby).users = db.users ∧
    List.Forall₂ (fun r r2 : Request =>
        r2.user_id = r.user_id ∧ r2.is_english = r.is_english ∧
        r2.message_id = r.message_id ∧ r2.req_time = r.req_time ∧
        r2.fulfill_message_id = r.fulfill_message_id ∧
        r2.fulfill_time = r.fulfill_time ∧
        (r.fulfill_message_id = some fmid → r2.fulfilled_by = some fby) ∧
        (r.fulfill_message_id ≠ some fmid → r2.fulfilled_by = r.fulfilled_by))
      db.requests (update_fulfilled_by db fmid fby).requests := by
  refine ⟨rfl, ?_⟩
  apply forall₂_map_self
  intro r _
  by_cases hc : r.fulfill_message_id = some fmid
  · simp [hc]
  · simp [hc]

/-! ### C7 -/

/-- C7: `register_request` fails with a duplicate-key error when `message_id`
is already used and with a foreign-key violation when `user_id` is unknown
(and the message id is fresh); in both failure cases the rolled-back state
seen by later operations is exactly the pre-call state.  On success it appends
one new pending row: `req_time` is the current time and the three fulfillment
fields are null. -/
theorem c7_register_request_behaviour (db : DBState) (now uid : Int) (e : Bool)
    (mid : Int) :
    ((∃ r ∈ db.requests, r.message_id = mid) →
      register_request db now uid e mid = .error .duplicateKey ∧
      applyOp db now (.registerRequest uid e mid) = db) ∧
    ((∀ r ∈ db.requests, r.message_id ≠ mid) → (∀ u ∈ db.users, u.user_id ≠ uid) →
      register_request db now uid e mid = .error .foreignKeyViolation ∧
      applyOp db now (.registerRequest uid e mid) = db) ∧
    ((∀ r ∈ db.requests, r.message_id ≠ mid) → (∃ u ∈ db.users, u.user_id = uid) →
      ∃ db2 newReq, register_request db now uid e mid = .ok db2 ∧
        db2.users = db.users ∧ db2.requests = db.requests ++ [newReq] ∧
        newReq.user_id = uid ∧ newReq.is_english = e ∧
        newReq.message_id = mid ∧ newReq.req_time = now ∧
        newReq.fulfill_message_id = none ∧ newReq.fulfill_time = none ∧
        newReq.fulfilled_by = none) := by
  refine ⟨?_, ?_, ?_⟩
  · rintro ⟨r, hr, hmid⟩
    have hdup : db.requests.any (fun r => r.message_id == mid) = true := by
      rw [List.any_eq_true]
      exact ⟨r, hr, by simp [hmid]⟩
    have hreg : register_request db now uid e mid = .error .duplicateKey := by
      unfold register_request
      rw [if_pos hdup]
    refine ⟨hreg, ?_⟩
    simp only [applyOp, hreg]
  · intro hfresh huser
    have hdup : ¬ db.requests.any (fun r => r.message_id == mid) = true := by
      rw [List.any_eq_true]
      rintro ⟨r, hr, hmid⟩
      exact hfresh r hr (by simpa using hmid)
    have husr : ¬ db.users.any (fun u => u.user_id == uid) = true := by
      rw [List.any_eq_true]
      rintro ⟨u, hu, huid⟩
      exact huser u hu (by simpa using huid)
    have hreg : register_request db now uid e mid = .error .foreignKeyViolation := by
      unfold register_request
      rw [if_neg hdup, if_neg husr]
    refine ⟨hreg, ?_⟩
    simp only [applyOp, hreg]
  · intro hfresh huser
    have hdup : ¬ db.requests.any (fun r => r.message_id == mid) = true := by
      rw [List.any_eq_true]
      rintro ⟨r, hr, hmid⟩
      exact hfresh r hr (by simpa using hmid)
    have husr : db.users.any (fun u => u.user_id == uid) = true := by
      rw [List.any_eq_true]
      obtain ⟨u, hu, huid⟩ := huser
      exact ⟨u, hu, by simp [huid]⟩
    refine ⟨{ db with requests := db.requests ++ [⟨uid, e, mid, now, none, none, none⟩] },
      ⟨uid, e, mid, now, none, none, none⟩, ?_, rfl, rfl, rfl, rfl, rfl, rfl, rfl, rfl, rfl⟩
    unfold register_request
    rw [if_neg hdup, if_pos husr]

/-- C7 witness: on `c7DemoDB` (user 1, no requests), registering for the
unknown user 9 fails with a foreign-key violation leaving the state unchanged,
and registering for user 1 succeeds. -/
theorem c7_witness :
    (register_request c7DemoDB 5 9 true 100 = .error .foreignKeyViolation ∧
      applyOp c7DemoDB 5 (.registerRequest 9 true 100) = c7DemoDB) ∧
    (∃ db2 newReq, register_request c7DemoDB 5 1 true 100 = .ok db2 ∧
      db2.users = c7DemoDB.users ∧ db2.requests = c7DemoDB.requests ++ [newReq] ∧
      newReq.user_id = 1 ∧ newReq.is_english = true ∧ newReq.message_id = 100 ∧
      newReq.req_time = 5 ∧ newReq.fulfill_message_id = none ∧
      newReq.fulfill_time = none ∧ newReq.fulfilled_by = none) :=
  ⟨(c7_register_request_behaviour c7DemoDB 5 9 true 100).2.1 (by decide) (by decide),
   (c7_register_request_behaviour c7DemoDB 5 1 true 100).2.2 (by decide) (by decide)⟩

/-! ### C9 -/

/-- C9: each read-only lookup answers absence with its explicit marker instead
of raising: `get_user_details` returns `None` for an absent user,
`get_user_last_request` returns the all-`None` dictionary for a user without
requests, and `get_latest_fulfilled` returns the all-`None` dictionary when no
request is fulfilled (all three are total functions of the state — the
`next(cur, sentinel)` default means no exception is raised on an empty
result). -/
theorem c9_absent_lookups (db : DBState) (uid : Int) :
    ((∀ u ∈ db.users, u.user_id ≠ uid) → get_user_details db uid = none) ∧
    ((∀ r ∈ db.requests, r.user_id ≠ uid) →
      get_user_last_request db uid = noLastRequest) ∧
    ((∀ r ∈ db.requests, r.fulfill_time = none) →
      get_latest_fulfilled db = noFulfilledRow) := by
  refine ⟨?_, ?_, ?_⟩
  · intro h
    unfold get_user_details
    rw [List.find?_eq_none.mpr]
    · rfl
    · intro u hu
      simp [h u hu]
  · intro h
    unfold get_user_last_request
    have hf : db.requests.filter (fun r => r.user_id == uid) = [] := by
      rw [List.filter_eq_nil_iff]
      intro r hr
      simp [h r hr]
    rw [hf]
    rfl
  · intro h
    unfold get_latest_fulfilled
    have hf : db.requests.filter (fun r => r.fulfill_time.isSome) = [] := by
      rw [List.filter_eq_nil_iff]
      intro r hr
      simp [h r hr]
    rw [hf]
    rfl

/-- C9 witness: on the empty schema all three lookups return their absence
markers. -/
theorem c9_witness :
    get_user_details emptyDB 5 = none ∧
    get_user_last_request emptyDB 5 = noLastRequest ∧
    get_latest_fulfilled emptyDB = noFulfilledRow :=
  ⟨(c9_absent_lookups emptyDB 5).1 (by decide),
   (c9_absent_lookups emptyDB 5).2.1 (by decide),
   (c9_absent_lookups emptyDB 5).2.2 (by decide)⟩

/-! ### C10 -/

/-- `List.foldl min` is a lower bound of the seed and of every element. -/
theorem foldl_min_le (t : Int) (ts : List Int) :
    List.foldl min t ts ≤ t ∧ ∀ x ∈ ts, List.foldl min t ts ≤ x := by
  induction ts generalizing t with
  | nil => simp
  | cons a ts ih =>
      rw [List.foldl_cons]
      obtain ⟨h1, h2⟩ := ih (min t a)
      refine ⟨le_trans h1 (min_le_left t a), ?_⟩
      intro x hx
      rcases List.mem_cons.mp hx with rfl | hx2
      · exact le_trans h1 (min_le_right t x)
      · exact h2 x hx2

/-- `List.foldl min` is attained at the seed or at some element. -/
theorem foldl_min_mem (t : Int) (ts : List Int) :
    List.foldl min t ts = t ∨ List.foldl min t ts ∈ ts := by
  induction ts generalizing t with
  | nil => simp
  | cons a ts ih =>
      rw [List.foldl_cons]
      rcases ih (min t a) with h | h
      · rcases min_choice t a with hm | hm
        · exact Or.inl (h.trans hm)
        · right
          rw [h, hm]
          exact List.mem_cons_self a ts
      · exact Or.inr (List.mem_cons_of_mem a h)

/-- C10: `get_user` wraps a present id in a one-element row tuple and returns
`None` for an absent id; `get_oldest_request_time` wraps the minimum
`req_time` in a one-element row tuple when requests exist and returns `None`
on an empty table. -/
theorem c10_row_tuple_results (db : DBState) (uid : Int) :
    ((∃ u ∈ db.users, u.user_id = uid) → get_user db uid = some [uid]) ∧
    ((∀ u ∈ db.users, u.user_id ≠ uid) → get_user db uid = none) ∧
    (db.requests ≠ [] →
      ∃ m, get_oldest_request_time db = some [m] ∧
        (∀ r ∈ db.requests, m ≤ r.req_time) ∧
        (∃ r ∈ db.requests, r.req_time = m)) ∧
    (db.requests = [] → get_oldest_request_time db = none) := by
  refine ⟨?_, ?_, ?_, ?_⟩
  · rintro ⟨u, hu, huid⟩
    unfold get_user
    have hsome : (db.users.find? (fun u => u.user_id == uid)).isSome := by
      rw [List.find?_isSome]
      exact ⟨u, hu, by simp [huid]⟩
    obtain ⟨v, hv⟩ := Option.isSome_iff_exists.mp hsome
    have : v.user_id = uid := by simpa using List.find?_some hv
    rw [hv, Option.map_some', this]
  · intro h
    unfold get_user
    rw [List.find?_eq_none.mpr]
    · rfl
    · intro u hu
      simp [h u hu]
  · intro hne
    rcases hreq : db.requests with _ | ⟨r, rs⟩
    · exact absurd hreq hne
    · refine ⟨List.foldl min r.req_time (rs.map (fun x => x.req_time)), ?_, ?_, ?_⟩
      · unfold get_oldest_request_time
        rw [hreq, List.map_cons]
      · intro x hx
        obtain ⟨h1, h2⟩ := foldl_min_le r.req_time (rs.map (fun x => x.req_time))
        rcases List.mem_cons.mp hx with rfl | hx2
        · exact h1
        · exact h2 x.req_time (List.mem_map.mpr ⟨x, hx2, rfl⟩)
      · rcases foldl_min_mem r.req_time (rs.map (fun x => x.req_time)) with h | h
        · exact ⟨r, List.mem_cons_self r rs, h.symm⟩
        · obtain ⟨x, hx, hxe⟩ := List.mem_map.mp h
          exact ⟨x, List.mem_cons_of_mem r hx, hxe⟩
  · intro h
    unfold get_oldest_request_time
    rw [h]
    rfl

/-- C10 witness: on `c10DemoDB`, `get_user` wraps the present id 1, returns
`None` for the absent id 9, and the oldest request time 30 is returned as a
one-element row tuple; on the empty schema the result is `None`. -/
theorem c10_witness :
    get_user c10DemoDB 1 = some [1] ∧
    get_user c10DemoDB 9 = none ∧
    (∃ m, get_oldest_request_time c10DemoDB = some [m] ∧
      (∀ r ∈ c10DemoDB.requests, m ≤ r.req_time) ∧
      (∃ r ∈ c10DemoDB.requests, r.req_time = m)) ∧
    get_oldest_request_time emptyDB = none :=
  ⟨(c10_row_tuple_results c10DemoDB 1).1 (by decide),
   (c10_row_tuple_results c10DemoDB 9).2.1 (by decide),
   (c10_row_tuple_results c10DemoDB 1).2.2.1 (by decide),
   (c10_row_tuple_results emptyDB 0).2.2.2 (by decide)⟩

/-! ### State-machine lemmas shared by the reachability invariants -/

/-- A successful `add_user` does not touch the requests table. -/
theorem add_user_requests (db : DBState) (uid : Int) (n un : Option String)
    (db2 : DBState) (h : add_user db uid n un = .ok db2) :
    db2.requests = db.requests := by
  unfold add_user at h
  split at h
  · cases h
  · cases h
    rfl

/-- A successful `register_request` keeps the users table and appends exactly
the one freshly opened row. -/
theorem register_request_ok (db : DBState) (now uid : Int) (e : Bool)
    (mid : Int) (db2 : DBState) (h : register_request db now uid e mid = .ok db2) :
    db2.users = db.users ∧
    db2.requests = db.requests ++ [⟨uid, e, mid, now, none, none, none⟩] := by
  unfold register_request at h
  split at h
  · cases h
  · split at h
    · cases h
      exact ⟨rfl, rfl⟩
    · cases h

/-- One step with a non-null re-attribution argument preserves the
all-or-nothing shape of the fulfillment triple. -/
theorem tripleOK_step (db : DBState) (t : Int) (op : Op)
    (hop : opNonNullFulfiller op = true)
    (h : ∀ r ∈ db.requests, tripleOK r) :
    ∀ r ∈ (applyOp db t op).requests, tripleOK r := by
  cases op with
  | addUser uid n un =>
      intro r hr
      simp only [applyOp] at hr
      split at hr
      next db2 heq => exact h r ((add_user_requests _ _ _ _ _ heq) ▸ hr)
      next => exact h r hr
  | registerRequest uid e mid =>
      intro r hr
      simp only [applyOp] at hr
      split at hr
      next db2 heq =>
        obtain ⟨-, hreq⟩ := register_request_ok _ _ _ _ _ _ heq
        rw [hreq] at hr
        rcases List.mem_append.mp hr with h1 | h1
        · exact h r h1
        · simp at h1
          rw [h1]
          exact Or.inl ⟨rfl, rfl, rfl⟩
      next => exact h r hr
  | registerRequestFulfillment uid mid fid fby =>
      intro r hr
      simp only [applyOp, register_request_fulfillment] at hr
      obtain ⟨s, hs, rfl⟩ := List.mem_map.mp hr
      by_cases hc : (s.user_id == uid && s.message_id == mid) = true
      · rw [if_pos hc]
        exact Or.inr ⟨rfl, rfl, rfl⟩
      · rw [if_neg hc]
        exact h s hs
  | markRequestNotDone uid mid =>
      intro r hr
      simp only [applyOp, mark_request_not_done] at hr
      obtain ⟨s, hs, rfl⟩ := List.mem_map.mp hr
      by_cases hc : (s.user_id == uid && s.message_id == mid) = true
      · rw [if_pos hc]
        exact Or.inl ⟨rfl, rfl, rfl⟩
      · rw [if_neg hc]
        exact h s hs
  | updateFulfilledBy fmid fby =>
      intro r hr
      simp only [applyOp, update_fulfilled_by_sql] at hr
      obtain ⟨s, hs, rfl⟩ := List.mem_map.mp hr
      obtain ⟨v, rfl⟩ := Option.isSome_iff_exists.mp (by simpa [opNonNullFulfiller] using hop)
      by_cases hc : (fmid.isSome && s.fulfill_message_id == fmid) = true
      · rw [if_pos hc]
        obtain ⟨hfm, hbeq⟩ := Bool.and_eq_true_iff.mp hc
        rcases h s hs with ⟨h1, -, -⟩ | ⟨h1, h2, -⟩
        · obtain ⟨w, rfl⟩ := Option.isSome_iff_exists.mp hfm
          rw [h1] at hbeq
          cases hbeq
        · exact Or.inr ⟨h1, h2, rfl⟩
      · rw [if_neg hc]
        exact h s hs
  | deleteRequest mid =>
      intro r hr
      simp only [applyOp, delete_request] at hr
      exact h r (List.mem_filter.mp hr).1

/-- The triple invariant is preserved along any replayed trace whose
re-attribution calls pass a non-null fulfiller. -/
theorem tripleOK_execTrace : ∀ (tr : List (Int × Op)) (db : DBState),
    (∀ step ∈ tr, opNonNullFulfiller step.2 = true) →
    (∀ r ∈ db.requests, tripleOK r) →
    ∀ r ∈ (execTrace db tr).requests, tripleOK r := by
  intro tr
  induction tr with
  | nil => intro db _ h; exact h
  | cons step rest ih =>
      intro db hops h
      exact ih _ (fun s hs => hops s (List.mem_cons_of_mem step hs))
        (tripleOK_step _ _ _ (hops step (List.mem_cons_self step rest)) h)

/-! ### C1 -/

/-- C1 counterexample: the claim as stated admits `update_fulfilled_by` with a
null `fulfilled_by` argument (it restricts only `register_request_fulfillment`
to non-null arguments).  Replaying register, fulfill, then
`update_fulfilled_by(200, None)` reaches a state whose single row keeps
`fulfill_message_id = 200` and `fulfill_time = 2` but has `fulfilled_by`
NULL — a partially populated triple, so the stated invariant fails. -/
theorem c1_null_reattribution_counterexample :
    (execTrace emptyDB c1CounterTrace).requests =
      [⟨1, true, 100, 1, some 200, some 2, none⟩] ∧
    ¬ (∀ r ∈ (execTrace emptyDB c1CounterTrace).requests, tripleOK r) := by
  decide

/-- C1 (amended): in every database state reachable from the empty schema by
any sequence of ledger operations in which `update_fulfilled_by`, like
`register_request_fulfillment`, is called with a non-null `fulfilled_by`
argument, every request row has its three fulfillment fields all null or all
non-null. -/
theorem c1_fulfillment_triple_invariant (trace : List (Int × Op))
    (hops : ∀ step ∈ trace, opNonNullFulfiller step.2 = true) :
    ∀ r ∈ (execTrace emptyDB trace).requests, tripleOK r :=
  tripleOK_execTrace trace emptyDB hops (by intro r hr; cases hr)

/-- C1 witness: `c1DemoTrace` (register, fulfill, then re-attribute to
fulfiller 9) uses only non-null fulfiller arguments, and its resulting row
satisfies the triple invariant. -/
theorem c1_witness :
    (∀ step ∈ c1DemoTrace, opNonNullFulfiller step.2 = true) ∧ tripleOK c1DemoRow :=
  ⟨by decide,
   c1_fulfillment_triple_invariant c1DemoTrace (by decide) c1DemoRow (by decide)⟩

/-! ### C8 -/

/-- One step at a later (or equal) time preserves `reqTimeBounded`. -/
theorem reqTimeBounded_step (db : DBState) (t u : Int) (op : Op)
    (h : reqTimeBounded db t) (hle : t ≤ u) :
    reqTimeBounded (applyOp db u op) u := by
  cases op with
  | addUser uid n un =>
      intro r hr
      simp only [applyOp] at hr
      split at hr
      next db2 heq =>
        obtain ⟨h1, h2⟩ := h r ((add_user_requests _ _ _ _ _ heq) ▸ hr)
        exact ⟨le_trans h1 hle, h2⟩
      next =>
        obtain ⟨h1, h2⟩ := h r hr
        exact ⟨le_trans h1 hle, h2⟩
  | registerRequest uid e mid =>
      intro r hr
      simp only [applyOp] at hr
      split at hr
      next db2 heq =>
        obtain ⟨-, hreq⟩ := register_request_ok _ _ _ _ _ _ heq
        rw [hreq] at hr
        rcases List.mem_append.mp hr with h1 | h1
        · obtain ⟨ha, hb⟩ := h r h1
          exact ⟨le_trans ha hle, hb⟩
        · simp at h1
          rw [h1]
          exact ⟨le_refl u, by intro ft hft; cases hft⟩
      next =>
        obtain ⟨h1, h2⟩ := h r hr
        exact ⟨le_trans h1 hle, h2⟩
  | registerRequestFulfillment uid mid fid fby =>
      intro r hr
      simp only [applyOp, register_request_fulfillment] at hr
      obtain ⟨s, hs, rfl⟩ := List.mem_map.mp hr
      obtain ⟨h1, h2⟩ := h s hs
      by_cases hc : (s.user_id == uid && s.message_id == mid) = true
      · rw [if_pos hc]
        refine ⟨le_trans h1 hle, ?_⟩
        intro ft hft
        have : u = ft := by simpa using hft
        rw [← this]
        exact le_trans h1 hle
      · rw [if_neg hc]
        exact ⟨le_trans h1 hle, h2⟩
  | markRequestNotDone uid mid =>
      intro r hr
      simp only [applyOp, mark_request_not_done] at hr
      obtain ⟨s, hs, rfl⟩ := List.mem_map.mp hr
      obtain ⟨h1, h2⟩ := h s hs
      by_cases hc : (s.user_id == uid && s.message_id == mid) = true
      · rw [if_pos hc]
        exact ⟨le_trans h1 hle, by intro ft hft; cases hft⟩
      · rw [if_neg hc]
        exact ⟨le_trans h1 hle, h2⟩
  | updateFulfilledBy fmid fby =>
      intro r hr
      simp only [applyOp, update_fulfilled_by_sql] at hr
      obtain ⟨s, hs, rfl⟩ := List.mem_map.mp hr
      obtain ⟨h1, h2⟩ := h s hs
      by_cases hc : (fmid.isSome && s.fulfill_message_id == fmid) = true
      · rw [if_pos hc]
        exact ⟨le_trans h1 hle, h2⟩
      · rw [if_neg hc]
        exact ⟨le_trans h1 hle, h2⟩
  | deleteRequest mid =>
      intro r hr
      simp only [applyOp, delete_request] at hr
      obtain ⟨h1, h2⟩ := h r (List.mem_filter.mp hr).1
      exact ⟨le_trans h1 hle, h2⟩

/-- Replaying a trace whose call times ascend from a state bounded by the
start time yields only rows with `req_time ≤ fulfill_time`. -/
theorem reqTimeBounded_execTrace : ∀ (tr : List (Int × Op)) (db : DBState) (t : Int),
    reqTimeBounded db t →
    List.Chain (fun a b : Int => a ≤ b) t (tr.map Prod.fst) →
    ∀ r ∈ (execTrace db tr).requests, ∀ ft, r.fulfill_time = some ft →
      r.req_time ≤ ft := by
  intro tr
  induction tr with
  | nil =>
      intro db t h _ r hr
      exact (h r hr).2
  | cons step rest ih =>
      intro db t h hchain
      rw [List.map_cons, List.chain_cons] at hchain
      obtain ⟨hle, hchain⟩ := hchain
      exact ih (applyOp db step.1 step.2) step.1
        (reqTimeBounded_step _ _ _ _ h hle) hchain

/-- C8: replaying any sequence of ledger operations from the empty schema with
non-decreasing call times (`datetime.now()` is monotone across the calls),
every request row with a non-null `fulfill_time` satisfies
`req_time ≤ fulfill_time`. -/
theorem c8_fulfill_time_ge_req_time (trace : List (Int × Op))
    (h : List.Chain' (fun a b : Int => a ≤ b) (trace.map Prod.fst)) :
    ∀ r ∈ (execTrace emptyDB trace).requests, ∀ ft,
      r.fulfill_time = some ft → r.req_time ≤ ft := by
  cases trace with
  | nil =>
      intro r hr
      cases hr
  | cons step rest =>
      apply reqTimeBounded_execTrace (step :: rest) emptyDB step.1
      · intro r hr
        cases hr
      · rw [List.map_cons, List.chain_cons]
        refine ⟨le_refl _, ?_⟩
        rw [List.map_cons] at h
        exact h

/-- C8 witness: `demoTrace` has ascending call times, and on its final state
every fulfilled row satisfies `req_time ≤ fulfill_time`. -/
theorem c8_witness :
    List.Chain' (fun a b : Int => a ≤ b) (demoTrace.map Prod.fst) ∧
    (∀ r ∈ (execTrace emptyDB demoTrace).requests, ∀ ft,
      r.fulfill_time = some ft → r.req_time ≤ ft) := by
  have hch : List.Chain' (fun a b : Int => a ≤ b) (demoTrace.map Prod.fst) := by
    simp [demoTrace, List.chain'_cons, List.chain'_singleton]
  exact ⟨hch, c8_fulfill_time_ge_req_time demoTrace hch⟩

/-! ### C5 -/

/-- Descending insertion permutes. -/
theorem insertDescByCount_perm (p : Nat × Int) (l : List (Nat × Int)) :
    List.Perm (insertDescByCount p l) (p :: l) := by
  induction l with
  | nil => exact List.Perm.refl _
  | cons q l ih =>
      unfold insertDescByCount
      by_cases hc : q.1 ≤ p.1
      · rw [if_pos hc]
      · rw [if_neg hc]
        exact (List.Perm.cons q ih).trans (List.Perm.swap p q l)

/-- Descending sort permutes. -/
theorem sortDescByCount_perm (l : List (Nat × Int)) :
    List.Perm (sortDescByCount l) l := by
  induction l with
  | nil => exact List.Perm.refl _
  | cons p l ih => exact (insertDescByCount_perm p _).trans (List.Perm.cons p ih)

/-- Descending insertion keeps the list sorted by descending count. -/
theorem insertDescByCount_pairwise (p : Nat × Int) (l : List (Nat × Int))
    (h : l.Pairwise (fun a b => b.1 ≤ a.1)) :
    (insertDescByCount p l).Pairwise (fun a b => b.1 ≤ a.1) := by
  induction l with
  | nil => simp [insertDescByCount]
  | cons q l ih =>
      rw [List.pairwise_cons] at h
      obtain ⟨hq, hl⟩ := h
      unfold insertDescByCount
      by_cases hc : q.1 ≤ p.1
      · rw [if_pos hc]
        rw [List.pairwise_cons]
        refine ⟨?_, ?_⟩
        · intro b hb
          rcases List.mem_cons.mp hb with rfl | hb2
          · exact hc
          · exact le_trans (hq b hb2) hc
        · rw [List.pairwise_cons]
          exact ⟨hq, hl⟩
      · rw [if_neg hc]
        rw [List.pairwise_cons]
        refine ⟨?_, ih hl⟩
        intro b hb
        have hb2 : b = p ∨ b ∈ l := by
          have := (insertDescByCount_perm p l).mem_iff.mp hb
          simpa using this
        rcases hb2 with rfl | hb3
        · omega
        · exact hq b hb3

/-- The sorted group list is in descending count order. -/
theorem sortDescByCount_pairwise (l : List (Nat × Int)) :
    (sortDescByCount l).Pairwise (fun a b => b.1 ≤ a.1) := by
  induction l with
  | nil => simp [sortDescByCount]
  | cons p l ih => exact insertDescByCount_pairwise p _ ih

/-- Membership in the `GROUP BY` output: one pair per distinct non-null
fulfiller, carrying the group's row count. -/
theorem mem_leaderboardGroups (rows : List Request) (c : Nat) (f : Int) :
    (c, f) ∈ leaderboardGroups rows ↔
      ((∃ r ∈ rows, r.fulfilled_by = some f) ∧
        c = rows.countP (fun r => r.fulfilled_by == some f)) := by
  unfold leaderboardGroups fulfillerIds
  rw [List.mem_map]
  constructor
  · rintro ⟨f2, hf2, heq⟩
    rw [Prod.mk.injEq] at heq
    obtain ⟨hc, hf⟩ := heq
    rw [List.mem_dedup, List.mem_filterMap] at hf2
    obtain ⟨r, hr, hrf⟩ := hf2
    rw [hf] at hrf hc
    exact ⟨⟨r, hr, hrf⟩, hc.symm⟩
  · rintro ⟨⟨r, hr, hrf⟩, rfl⟩
    refine ⟨f, ?_, rfl⟩
    rw [List.mem_dedup, List.mem_filterMap]
    exact ⟨r, hr, hrf⟩

/-- C5: for a state satisfying the fulfillment-triple invariant (every
reachable state does), `get_leaderboard` is in descending count order, its
pairs are exactly `(group count, fulfiller)` for the fulfillers of the
fulfilled requests, and no fulfiller appears twice. -/
theorem c5_leaderboard (db : DBState) (hinv : ∀ r ∈ db.requests, tripleOK r) :
    (get_leaderboard db).Pairwise (fun a b => b.1 ≤ a.1) ∧
    (∀ (c : Nat) (f : Int), (c, f) ∈ get_leaderboard db ↔
      ((∃ r ∈ db.requests, r.fulfill_time.isSome ∧ r.fulfilled_by = some f) ∧
        c = db.requests.countP (fun r => r.fulfilled_by == some f))) ∧
    ((get_leaderboard db).map Prod.snd).Nodup := by
  refine ⟨sortDescByCount_pairwise _, ?_, ?_⟩
  · intro c f
    rw [get_leaderboard, (sortDescByCount_perm _).mem_iff, mem_leaderboardGroups]
    constructor
    · rintro ⟨⟨r, hr, hrf⟩, hc⟩
      refine ⟨⟨r, hr, ?_, hrf⟩, hc⟩
      rcases hinv r hr with ⟨-, -, h3⟩ | ⟨-, h2, -⟩
      · rw [h3] at hrf
        cases hrf
      · exact h2
    · rintro ⟨⟨r, hr, -, hrf⟩, hc⟩
      exact ⟨⟨r, hr, hrf⟩, hc⟩
  · have hmap : (leaderboardGroups db.requests).map Prod.snd =
        fulfillerIds db.requests := by
      unfold leaderboardGroups
      rw [List.map_map]
      exact List.map_id _
    have hperm : List.Perm ((get_leaderboard db).map Prod.snd)
        ((leaderboardGroups db.requests).map Prod.snd) :=
      (sortDescByCount_perm _).map Prod.snd
    rw [hperm.nodup_iff, hmap]
    exact List.nodup_dedup _

/-- C5 witness: `c5DemoDB` satisfies the invariant, and its leaderboard is
descending, has the expected membership, and lists each fulfiller once. -/
theorem c5_witness :
    (∀ r ∈ c5DemoDB.requests, tripleOK r) ∧
    ((get_leaderboard c5DemoDB).Pairwise (fun a b => b.1 ≤ a.1) ∧
      (∀ (c : Nat) (f : Int), (c, f) ∈ get_leaderboard c5DemoDB ↔
        ((∃ r ∈ c5DemoDB.requests, r.fulfill_time.isSome ∧ r.fulfilled_by = some f) ∧
          c = c5DemoDB.requests.countP (fun r => r.fulfilled_by == some f))) ∧
      ((get_leaderboard c5DemoDB).map Prod.snd).Nodup) :=
  ⟨by decide, c5_leaderboard c5DemoDB (by decide)⟩

end RequestTracker
